import Mathlib

/-!
Verification of the Dynamiq agent server (src/agent/server.py and
src/agent/main.py), shallowly embedded in Lean.

Python strings are modelled as `List Char` so that slicing (`s[:n]`),
concatenation and length behave exactly as in the source.  Python dicts
keyed by user id are modelled as association lists; `time.time()` is
modelled as an integer number of seconds (the claims only ever compare
ages at whole-second granularity).  Remote effects (the OpenAI completion
call, tool execution inside the sandbox, sandbox provisioning) are
modelled as oracle parameters: the completion oracle gives the result of
the i-th `chat.completions.create` call, and the tool oracle gives the
value returned by `_execute_tool`.
-/

/-- Python strings, as sequences of characters. -/
abbrev Str := List Char

/-- Python truthiness of an optional string: `None` and the empty string
are falsy, every other string is truthy. -/
def pyTruthyStr : Option Str → Bool
  | none => false
  | some s => !s.isEmpty

/-- Python `x or []` on an optional list (used by `messages or []` and
`files or []` in the agent constructor). -/
def pyOrNil {α : Type} (o : Option (List α)) : List α := o.getD []

/-- Python `x or ""` on an optional string (used by `req.conversation_id
or ""` and `req.mcp_proxy_url or ""` in the server handlers). -/
def pyOrEmpty (o : Option Str) : Str := o.getD []

/-- One recorded tool call inside a history message, as marshalled by the
server (`MessageHistory.tool_calls`): id, name, raw arguments and an
optional recorded result. -/
structure HistToolCall where
  id : Str
  name : Str
  arguments : Str
  result : Option Str
deriving DecidableEq, Repr

/-- One message of the conversation history passed to `run`
(`{"role": .., "content": .., "tool_calls": ..}`). -/
structure HistMessage where
  role : Str
  content : Str
  toolCalls : Option (List HistToolCall)
deriving DecidableEq, Repr

/-- An uploaded file item (`{"name", "size", "type", "data"}`). -/
structure FileItem where
  name : Str
  size : Nat
  type : Str
  data : Str
deriving DecidableEq, Repr

/-- A tool call requested by the completion model
(`tc.id`, `tc.function.name`, `tc.function.arguments`). -/
structure ToolCallReq where
  id : Str
  name : Str
  arguments : Str
deriving DecidableEq, Repr

/-- One entry of the OpenAI-facing `messages` list built by
`DynamiqAgent.run`.  `content = none` models Python `None` content on
assistant tool-call messages; `toolCallId` is set on tool-role messages. -/
structure ChatMessage where
  role : Str
  content : Option Str
  toolCalls : List ToolCallReq := []
  toolCallId : Option Str := none
deriving DecidableEq, Repr

/-- The events emitted by the agent loop and the stream gateway
(`thinking`, `tool_call`, `tool_result`, `message`, `file`, `error`,
`status`, `done`). -/
inductive Event where
  | thinking (iteration : Nat)
  | toolCall (id name arguments : Str)
  | toolResult (id name result : Str)
  | message (content : Str)
  | fileEvt (filename mimeType : Str) (size : Nat) (data description : Str)
  | error (message : Str)
  | statusEvt (message : Str)
  | done
deriving DecidableEq, Repr

/-- Result of one `chat.completions.create` call: either the call raised
an exception, or it returned a message with optional content and a
(possibly empty) list of requested tool calls. -/
inductive CompletionResult where
  | failure (err : Str)
  | success (content : Option Str) (toolCalls : List ToolCallReq)
deriving DecidableEq, Repr

/-- Value returned by `_execute_tool`, after the run loop's dict
dispatch: a plain string, a file-artifact dict, an error dict, or some
other dict (which the loop JSON-dumps). -/
inductive ToolOutcome where
  | textResult (s : Str)
  | fileArtifact (filename mimeType : Str) (size : Nat) (data description : Str)
  | errorDict (err : Str)
  | otherDict (jsonDump : Str)
deriving DecidableEq, Repr

/-- The fields of a `DynamiqAgent` relevant to the pool and the server
handlers, as set by its constructor (`__init__`) or mutated by the warm
path of `/run/stream`. -/
structure AgentObj where
  userId : Str
  sessionToken : Str
  mcpProxyUrl : Str
  conversationId : Str
  existingSandboxId : Option Str
  messagesHistory : List HistMessage
  pendingFiles : List FileItem
deriving DecidableEq, Repr, Inhabited

/-- The `DynamiqAgent(...)` constructor as invoked by the server:
`messages or []` and `files or []` are applied to the optional arguments
(main.py lines 749-755). -/
def mkDynamiqAgent (userId sessionToken mcpProxyUrl conversationId : Str)
    (sandboxId : Option Str) (messages : Option (List HistMessage))
    (files : Option (List FileItem)) : AgentObj :=
  { userId := userId
    sessionToken := sessionToken
    mcpProxyUrl := mcpProxyUrl
    conversationId := conversationId
    existingSandboxId := sandboxId
    messagesHistory := pyOrNil messages
    pendingFiles := pyOrNil files }

/-- One value of the `warm_sandbox_pool` dict:
`{"sandbox_id", "agent", "created_at", "ready"}`. -/
structure PoolEntry where
  sandboxId : Option Str
  agent : Option AgentObj
  createdAt : Int
  ready : Bool
deriving DecidableEq, Repr

/-- The module-level `warm_sandbox_pool` dict, keyed by user id. -/
abbrev Pool := List (Str × PoolEntry)

/-- The warm-sandbox TTL: `WARM_SANDBOX_TTL = 25 * 60` seconds. -/
def WARM_SANDBOX_TTL : Int := 25 * 60

/-- The entries `cleanup_expired_sandboxes` collects as expired:
those with `now - info["created_at"] > WARM_SANDBOX_TTL`
(server.py lines 38-40). -/
def expired_entries (now : Int) (pool : Pool) : Pool :=
  pool.filter fun p => decide (now - p.2.createdAt > WARM_SANDBOX_TTL)

/-- The pool after `cleanup_expired_sandboxes`: every expired entry is
deleted (and its agent torn down); the rest are kept unchanged
(server.py lines 35-49). -/
def cleanup_expired_sandboxes (now : Int) (pool : Pool) : Pool :=
  pool.filter fun p => decide (now - p.2.createdAt ≤ WARM_SANDBOX_TTL)

/-- Deletion of a key from the pool dict (`warm_sandbox_pool.pop(uid)` /
`del warm_sandbox_pool[uid]`). -/
def poolErase (userId : Str) (pool : Pool) : Pool :=
  pool.filter fun p => !(p.1 == userId)

/-- The claim step of `/run/stream` (server.py lines 313-318): under the
lock, if the user has a pool entry and it is ready, pop it (taking
ownership) and return it; otherwise leave the pool unchanged. -/
def claim_warm (userId : Str) (pool : Pool) : Option PoolEntry × Pool :=
  match List.lookup userId pool with
  | some info => if info.ready then (some info, poolErase userId pool) else (none, pool)
  | none => (none, pool)

/-- Response body of the warm endpoints (`WarmResponse`). -/
structure WarmResponse where
  status : Str
  sandboxId : Option Str
  ready : Bool
  message : Str
deriving DecidableEq, Repr

/-- The `GET /warm/status/{user_id}` handler (server.py lines 228-246):
a pure read of the stored entry, with no TTL check and no time input. -/
def warm_status (userId : Str) (pool : Pool) : WarmResponse :=
  match List.lookup userId pool with
  | none =>
      { status := "none".toList
        sandboxId := none
        ready := false
        message := "No warm sandbox for this user".toList }
  | some info =>
      { status := if info.ready then "ready".toList else "warming".toList
        sandboxId := info.sandboxId
        ready := info.ready
        message := if info.ready then "Sandbox ready".toList
                   else "Sandbox still initializing".toList }

/-- Request body of `POST /warm`. -/
structure WarmReq where
  userId : Str
  sessionToken : Str
  mcpProxyUrl : Option Str
deriving DecidableEq, Repr

/-- The pool-facing part of the `POST /warm` handler (server.py lines
138-186): it first runs `cleanup_expired_sandboxes`, then reports an
existing entry, or inserts a fresh warming entry (the background
provisioning task is started outside the lock and is not part of this
step). -/
def warm_sandbox_step (now : Int) (req : WarmReq) (pool : Pool) :
    WarmResponse × Pool :=
  let pool := cleanup_expired_sandboxes now pool
  match List.lookup req.userId pool with
  | some info =>
      if info.ready then
        ({ status := "ready".toList, sandboxId := info.sandboxId, ready := true
           message := "Sandbox already warmed and ready".toList }, pool)
      else
        ({ status := "warming".toList, sandboxId := info.sandboxId, ready := false
           message := "Sandbox is being initialized".toList }, pool)
  | none =>
      ({ status := "warming".toList, sandboxId := none, ready := false
         message := "Sandbox warming started".toList },
       pool ++ [(req.userId, { sandboxId := none, agent := none, createdAt := now, ready := false })])

/-- Request body of `POST /run` and `POST /run/stream` (`RunRequest`). -/
structure RunReq where
  message : Str
  messages : Option (List HistMessage)
  userId : Str
  sessionToken : Str
  conversationId : Option Str
  sandboxId : Option Str
  mcpProxyUrl : Option Str
  files : Option (List FileItem)
deriving DecidableEq, Repr

/-- Outcome of the sandbox-handle resolution step of `/run/stream`. -/
structure ResolveResult where
  agent : AgentObj
  usingWarm : Bool
  warmSandboxId : Option Str
  pool : Pool
deriving DecidableEq, Repr

/-- The sandbox-handle resolution step of `POST /run/stream` (server.py
lines 310-339): under the lock, pop the user's pool entry whenever it is
present and ready; then use the popped agent only if it exists, its
sandbox id is truthy, and the request carries no truthy explicit
`sandbox_id`; otherwise construct a fresh `DynamiqAgent` from the request
fields. -/
def run_agent_stream_resolve (req : RunReq) (pool : Pool) : ResolveResult :=
  let claimed := claim_warm req.userId pool
  let warmAgent : Option AgentObj := claimed.1.bind (fun info => info.agent)
  let warmSid : Option Str := claimed.1.bind (fun info => info.sandboxId)
  if warmAgent.isSome ∧ pyTruthyStr warmSid = true ∧ pyTruthyStr req.sandboxId = false then
    { agent :=
        { (warmAgent.getD default) with
            conversationId := pyOrEmpty req.conversationId
            pendingFiles := pyOrNil req.files
            messagesHistory := pyOrNil req.messages }
      usingWarm := true
      warmSandboxId := warmSid
      pool := claimed.2 }
  else
    { agent := mkDynamiqAgent req.userId req.sessionToken
        (pyOrEmpty req.mcpProxyUrl) (pyOrEmpty req.conversationId)
        req.sandboxId req.messages req.files
      usingWarm := false
      warmSandboxId := none
      pool := claimed.2 }

/-- Response body of `POST /run`. -/
structure RunResponse where
  response : Str
  sandboxId : Option Str
deriving DecidableEq, Repr

/-- The `POST /run` handler (server.py lines 249-277), with the remote
effects as oracles: `setupSandboxId` stands for the value returned by
`agent.setup()` and `runResult` for the value returned by
`agent.run(req.message)`.  The handler builds a fresh agent from the
request and never touches `warm_sandbox_pool`; the pool is threaded
through unchanged. -/
def run_agent (setupSandboxId : Str) (runResult : Str) (req : RunReq)
    (pool : Pool) : RunResponse × AgentObj × Pool :=
  let agent := mkDynamiqAgent req.userId req.sessionToken
    (pyOrEmpty req.mcpProxyUrl) (pyOrEmpty req.conversationId)
    req.sandboxId req.messages req.files
  ({ response := runResult, sandboxId := some setupSandboxId }, agent, pool)

/-- The tool calls a history message actually declares for replay: the
source guards on `msg.get("tool_calls") and msg["role"] == "assistant"`
(main.py lines 1290, 1311), so a missing or empty list, or a
non-assistant role, declares nothing. -/
def histDeclaredCalls (m : HistMessage) : List HistToolCall :=
  match m.toolCalls with
  | none => []
  | some tcs => if tcs ≠ [] ∧ m.role = "assistant".toList then tcs else []

/-- Conversion of a recorded tool call to the OpenAI wire format
(main.py lines 1292-1300); the `"type": "function"` wrapper is implicit
in `ToolCallReq`. -/
def toOpenAIToolCall (tc : HistToolCall) : ToolCallReq :=
  { id := tc.id, name := tc.name, arguments := tc.arguments }

/-- The `msg_dict` built for one history message (main.py lines
1287-1305): role and content are copied; if the message declares tool
calls they are attached and an empty content becomes `None`. -/
def histToChatMessage (m : HistMessage) : ChatMessage :=
  let tcs := histDeclaredCalls m
  if tcs = [] then
    { role := m.role, content := some m.content }
  else
    { role := m.role
      content := if m.content = [] then none else some m.content
      toolCalls := tcs.map toOpenAIToolCall }

/-- The tool-role message appended for one declared tool call (main.py
lines 1312-1317): `content = tc.get("result", "") or "(no result)"`. -/
def toolResultMessage (tc : HistToolCall) : ChatMessage :=
  { role := "tool".toList
    content := some (if tc.result.getD [] = [] then "(no result)".toList
                     else tc.result.getD [])
    toolCallId := some tc.id }

/-- Replay of one history message: the converted message followed by one
tool-role message per declared tool call, in declaration order
(main.py lines 1285-1317). -/
def expandHistMessage (m : HistMessage) : List ChatMessage :=
  histToChatMessage m :: (histDeclaredCalls m).map toolResultMessage

/-- The message list assembled at the start of `DynamiqAgent.run`
(main.py lines 1277-1320): system prompt, replayed history, then the new
user message. -/
def build_messages (systemPrompt : Str) (history : List HistMessage)
    (userMessage : Str) : List ChatMessage :=
  { role := "system".toList, content := some systemPrompt } ::
    (history.flatMap expandHistMessage ++
      [{ role := "user".toList, content := some userMessage }])

/-- The truncation marker appended when a tool result is cut for the
message list. -/
def TRUNCATION_MARKER : Str := "\n\n... (output truncated)".toList

/-- Truncation of a tool result before it is folded back into the
message list (main.py lines 1387-1389):
`result[:8000] + "\n\n... (output truncated)"` when over 8000 chars. -/
def truncateForMessages (result : Str) : Str :=
  if result.length > 8000 then result.take 8000 ++ TRUNCATION_MARKER else result

/-- Truncation of a tool result for the emitted `tool_result` event
(main.py line 1394): `result[:1000] + ("..." if len(result) > 1000 else "")`,
applied to the already message-truncated result. -/
def truncateForEvent (result : Str) : Str :=
  result.take 1000 ++ (if result.length > 1000 then "...".toList else [])

/-- The string the loop substitutes for a file artifact result
(main.py line 1381). -/
def fileSentText (filename : Str) (size : Nat) : Str :=
  "File '".toList ++ filename ++ "' (".toList ++ (toString size).toList ++
    " bytes) has been sent to the user for download.".toList

/-- Dict dispatch on a tool outcome (main.py lines 1371-1385): a file
artifact emits a `file` event and is replaced by a notice string; an
error dict collapses to its error text; any other dict is JSON-dumped;
plain strings pass through. -/
def toolOutcomeDispatch (outcome : ToolOutcome) : List Event × Str :=
  match outcome with
  | ToolOutcome.fileArtifact fn mt sz dt ds =>
      ([Event.fileEvt fn mt sz dt ds], fileSentText fn sz)
  | ToolOutcome.errorDict e => ([], e)
  | ToolOutcome.otherDict j => ([], j)
  | ToolOutcome.textResult s => ([], s)

/-- The oracles standing for the remote effects of the loop:
`normalizeArgs` models `json.dumps(json.loads(raw))` with the
decode-error fallback to `{}`, and `execTool` models `_execute_tool`
on (name, normalized arguments). -/
structure LoopCtx where
  normalizeArgs : Str → Str
  execTool : Str → Str → ToolOutcome

/-- Handling of one requested tool call inside an iteration (main.py
lines 1351-1402): emit `tool_call`, execute, dispatch the outcome,
truncate, emit `tool_result`, and produce the tool-role message to
append. -/
def processToolCall (ctx : LoopCtx) (tc : ToolCallReq) : List Event × ChatMessage :=
  let args := ctx.normalizeArgs tc.arguments
  let dispatched := toolOutcomeDispatch (ctx.execTool tc.name args)
  let result := truncateForMessages dispatched.2
  (Event.toolCall tc.id tc.name args ::
     (dispatched.1 ++ [Event.toolResult tc.id tc.name (truncateForEvent result)]),
   { role := "tool".toList, content := some result, toolCallId := some tc.id })

/-- The assistant message appended when the model requests tool calls
(main.py line 1348). -/
def assistantToolMessage (content : Option Str) (tcs : List ToolCallReq) : ChatMessage :=
  { role := "assistant".toList, content := content, toolCalls := tcs }

/-- Sentinel returned when the loop exhausts its 15 iterations
(main.py line 1404). -/
def MAX_ITERATIONS_TEXT : Str :=
  "Maximum iterations reached. Please try a simpler request.".toList

/-- Text of the `error` event emitted on a completion failure
(main.py line 1336). -/
def llmErrorEventText (e : Str) : Str := "LLM error: ".toList ++ e

/-- Final text returned on a completion failure (main.py line 1337). -/
def llmErrorReturnText (e : Str) : Str := "Error calling LLM: ".toList ++ e

/-- The observable outcome of `DynamiqAgent.run`: the events emitted (in
order), the returned text, the number of `chat.completions.create`
calls made, and the final message list. -/
structure RunOutcome where
  events : List Event
  finalText : Str
  completionCalls : Nat
  finalMessages : List ChatMessage
deriving DecidableEq, Repr

/-- True when a completion result requests at least one tool call, i.e.
the loop does not terminate on it (`if not msg.tool_calls` is false,
main.py line 1342). -/
def requestsTools : CompletionResult → Bool
  | CompletionResult.failure _ => false
  | CompletionResult.success _ tcs => !tcs.isEmpty

/-- The agent loop (main.py lines 1322-1404), by recursion on the
remaining iterations.  `callIdx` is the 0-based iteration counter; the
completion oracle gives the result of the `callIdx`-th model call. -/
def runLoop (ctx : LoopCtx) (oracle : Nat → CompletionResult) :
    Nat → Nat → List ChatMessage → List Event → Nat → RunOutcome
  | 0, _, messages, events, calls =>
      { events := events, finalText := MAX_ITERATIONS_TEXT
        completionCalls := calls, finalMessages := messages }
  | fuel + 1, callIdx, messages, events, calls =>
      let events := events ++ [Event.thinking (callIdx + 1)]
      match oracle callIdx with
      | CompletionResult.failure e =>
          { events := events ++ [Event.error (llmErrorEventText e)]
            finalText := llmErrorReturnText e
            completionCalls := calls + 1, finalMessages := messages }
      | CompletionResult.success content tcs =>
          if tcs.isEmpty then
            let final := content.getD []
            { events := events ++ [Event.message final], finalText := final
              completionCalls := calls + 1, finalMessages := messages }
          else
            let steps := tcs.map (processToolCall ctx)
            runLoop ctx oracle fuel (callIdx + 1)
              (messages ++ assistantToolMessage content tcs :: steps.map Prod.snd)
              (events ++ steps.flatMap Prod.fst)
              (calls + 1)

/-- `DynamiqAgent.run(user_message, on_event)` (main.py lines
1253-1404): build the message list, then run at most 15 iterations. -/
def agent_run (ctx : LoopCtx) (oracle : Nat → CompletionResult)
    (systemPrompt : Str) (history : List HistMessage) (userMessage : Str) :
    RunOutcome :=
  runLoop ctx oracle 15 0 (build_messages systemPrompt history userMessage) [] 0

/-- Items placed on the `event_queue` of `/run/stream`: relayed agent
events, the `_final_result` marker, and the `_done` marker
(server.py lines 344-395). -/
inductive QueueItem where
  | evt (e : Event)
  | finalResult (s : Str)
  | doneSignal
deriving DecidableEq, Repr

/-- The queue-visible outcome of `DynamiqAgent.run`.  `on_event` only
schedules each enqueue through `loop.call_soon_threadsafe` (server.py
lines 349-354), so an emitted event lands in the queue at the run's next
suspension point (the `asyncio.to_thread` of the completion call or of a
tool execution); `flushed` holds the events whose callbacks have run by
the time `run` returns, `pending` the events emitted after the run's
last suspension point, whose callbacks run only after `run_agent_task`
has already enqueued `_final_result` and `_done` synchronously
(`asyncio.Queue.put` never yields on an unbounded queue, server.py
lines 388-395). -/
structure RunStreamOutcome where
  flushed : List Event
  pending : List Event
  finalText : Str
deriving DecidableEq, Repr

/-- The tool calls of one iteration as seen by the queue (main.py lines
1351-1402): the `tool_call` event is emitted before the
`asyncio.to_thread` execution await — so it and everything scheduled
earlier flush into the queue there — while the `file` and `tool_result`
events are emitted after that await and stay scheduled until the next
suspension point. -/
def streamToolSteps (ctx : LoopCtx) :
    List ToolCallReq → List Event → List Event → List Event × List Event
  | [], flushed, pending => (flushed, pending)
  | tc :: rest, flushed, pending =>
      let args := ctx.normalizeArgs tc.arguments
      let dispatched := toolOutcomeDispatch (ctx.execTool tc.name args)
      let result := truncateForMessages dispatched.2
      streamToolSteps ctx rest
        (flushed ++ pending ++ [Event.toolCall tc.id tc.name args])
        (dispatched.1 ++ [Event.toolResult tc.id tc.name (truncateForEvent result)])

/-- The agent loop of `runLoop`, additionally tracking which emitted
events have been flushed into the gateway queue: scheduled events flush
at each suspension point (the completion call and each tool execution),
and the events emitted after the last suspension — the final `message`
on success, the `error` on a completion failure, the trailing `file` and
`tool_result` of the last tool call on budget exhaustion — are still
pending when the run returns. -/
def runLoopStream (ctx : LoopCtx) (oracle : Nat → CompletionResult) :
    Nat → Nat → List ChatMessage → List Event → List Event → Nat → RunStreamOutcome
  | 0, _, _, flushed, pending, _ =>
      { flushed := flushed, pending := pending, finalText := MAX_ITERATIONS_TEXT }
  | fuel + 1, callIdx, messages, flushed, pending, calls =>
      let flushed := flushed ++ (pending ++ [Event.thinking (callIdx + 1)])
      match oracle callIdx with
      | CompletionResult.failure e =>
          { flushed := flushed, pending := [Event.error (llmErrorEventText e)]
            finalText := llmErrorReturnText e }
      | CompletionResult.success content tcs =>
          if tcs.isEmpty then
            let final := content.getD []
            { flushed := flushed, pending := [Event.message final], finalText := final }
          else
            let stepped := streamToolSteps ctx tcs flushed []
            runLoopStream ctx oracle fuel (callIdx + 1)
              (messages ++ assistantToolMessage content tcs ::
                (tcs.map (processToolCall ctx)).map Prod.snd)
              stepped.1 stepped.2 (calls + 1)

/-- `DynamiqAgent.run` as observed by the stream gateway's queue. -/
def agent_run_stream (ctx : LoopCtx) (oracle : Nat → CompletionResult)
    (systemPrompt : Str) (history : List HistMessage) (userMessage : Str) :
    RunStreamOutcome :=
  runLoopStream ctx oracle 15 0 (build_messages systemPrompt history userMessage) [] [] 0

/-- Contents of the event queue as `generate_events` drains it for a
completed run (server.py lines 344-395): the flushed events in emission
order, then `_final_result` with the returned text and `_done` — both
enqueued synchronously by `run_agent_task` before the deferred
`call_soon_threadsafe` callbacks of the last emitted events can run —
then the pending events, which land after `_done` and are therefore
never relayed. -/
def runTaskQueue (r : RunStreamOutcome) : List QueueItem :=
  r.flushed.map QueueItem.evt ++
    ([QueueItem.finalResult r.finalText, QueueItem.doneSignal] ++
      r.pending.map QueueItem.evt)

/-- The relay loop of `generate_events` (server.py lines 401-419):
regular events pass through, `_final_result` becomes a `message` event,
`_done` stops the relay. -/
def relayQueue : List QueueItem → List Event
  | [] => []
  | QueueItem.evt e :: rest => e :: relayQueue rest
  | QueueItem.finalResult s :: rest => Event.message s :: relayQueue rest
  | QueueItem.doneSignal :: _ => []

/-- The outward event stream of `/run/stream` for a completed run, after
the status prelude: the relayed queue followed by the terminal `done`
event (server.py lines 401-425). -/
def streamedEvents (r : RunStreamOutcome) : List Event :=
  relayQueue (runTaskQueue r) ++ [Event.done]

/-- True exactly on `message` events. -/
def isMessageEvent : Event → Bool
  | Event.message _ => true
  | _ => false

/-- Lookup of a key in the pool after that key has been deleted always
fails. -/
lemma lookup_poolErase (uid : Str) (pool : Pool) :
    List.lookup uid (poolErase uid pool) = none := by
  induction pool with
  | nil => rfl
  | cons p rest ih =>
    obtain ⟨k, v⟩ := p
    simp only [poolErase, List.filter_cons] at ih ⊢
    by_cases h : k = uid
    · simp [h, ih]
    · have hbe : (uid == k) = false := by simp [Ne.symm h]
      simp [h, List.lookup, hbe, ih]

/-- Lookup of an absent key still fails in any filtered pool. -/
lemma lookup_filter_none (f : Str × PoolEntry → Bool) (uid : Str) (pool : Pool)
    (h : uid ∉ pool.map Prod.fst) :
    List.lookup uid (pool.filter f) = none := by
  induction pool with
  | nil => rfl
  | cons p rest ih =>
    obtain ⟨k, v⟩ := p
    simp only [List.map_cons, List.mem_cons] at h
    push_neg at h
    have hbe : (uid == k) = false := by simp [h.1]
    simp only [List.filter_cons]
    by_cases hf : f (k, v) = true
    · simp [hf, List.lookup, hbe, ih h.2]
    · simp [hf, ih h.2]

/-- In a pool with distinct keys, filtering keeps or drops the looked-up
entry exactly according to the filter predicate. -/
lemma lookup_filter_nodupKeys (f : Str × PoolEntry → Bool) (uid : Str) (e : PoolEntry)
    (pool : Pool) (hnd : (pool.map Prod.fst).Nodup)
    (hl : List.lookup uid pool = some e) :
    List.lookup uid (pool.filter f) = if f (uid, e) then some e else none := by
  induction pool with
  | nil => simp at hl
  | cons p rest ih =>
    obtain ⟨k, v⟩ := p
    simp only [List.map_cons, List.nodup_cons] at hnd
    by_cases h : uid = k
    · subst h
      have hbe : (uid == uid) = true := by simp
      simp only [List.lookup, hbe] at hl
      have hv : v = e := by simpa using hl
      rw [hv]
      simp only [List.filter_cons]
      by_cases hf : f (uid, e) = true
      · simp [hf, List.lookup, hbe]
      · simp [hf, lookup_filter_none f uid rest hnd.1]
    · have hbe : (uid == k) = false := by simp [h]
      simp only [List.lookup, hbe] at hl
      simp only [List.filter_cons]
      by_cases hf : f (k, v) = true
      · rw [if_pos hf]
        simp only [List.lookup, hbe]
        exact ih hnd.2 hl
      · rw [if_neg hf]
        exact ih hnd.2 hl

/-- When the claim step returns no entry, the pool is left unchanged. -/
lemma claim_warm_none_pool (uid : Str) (pool : Pool)
    (h : (claim_warm uid pool).1 = none) : (claim_warm uid pool).2 = pool := by
  cases hl : List.lookup uid pool with
  | none => simp [claim_warm, hl]
  | some info =>
    by_cases hr : info.ready = true
    · exfalso
      simp [claim_warm, hl, hr] at h
    · simp [claim_warm, hl, hr]

/-- When the claim step returns an entry, that entry was the user's pool
entry, it was ready, and the key has been popped. -/
lemma claim_warm_some (uid : Str) (pool : Pool) (e : PoolEntry)
    (h : (claim_warm uid pool).1 = some e) :
    List.lookup uid pool = some e ∧ e.ready = true ∧
    (claim_warm uid pool).2 = poolErase uid pool := by
  cases hl : List.lookup uid pool with
  | none =>
    exfalso
    simp [claim_warm, hl] at h
  | some info =>
    by_cases hr : info.ready = true
    · have he : info = e := by
        simpa [claim_warm, hl, hr] using h
      subst he
      refine ⟨rfl, hr, ?_⟩
      simp [claim_warm, hl, hr]
    · exfalso
      simp [claim_warm, hl, hr] at h

/-- Claim C6: claiming a warm pool entry atomically removes it — once a
`/run/stream` request has taken the ready entry for a user id, the pool
no longer holds an entry for that user, and a subsequent claim for the
same user returns none and leaves the pool unchanged, so at most one
caller ever receives a given warmed handle. -/
theorem claim_warm_exclusive (uid : Str) (pool : Pool) (e : PoolEntry)
    (h : (claim_warm uid pool).1 = some e) :
    e.ready = true ∧
    List.lookup uid (claim_warm uid pool).2 = none ∧
    claim_warm uid ((claim_warm uid pool).2) = (none, (claim_warm uid pool).2) := by
  obtain ⟨hl, hr, hp⟩ := claim_warm_some uid pool e h
  refine ⟨hr, ?_, ?_⟩
  · rw [hp]
    exact lookup_poolErase uid pool
  · rw [hp]
    simp [claim_warm, lookup_poolErase uid pool]

/-- A ready warm pool entry used by the concrete witnesses. -/
def entryReadyW : PoolEntry :=
  { sandboxId := some "sb-1".toList, agent := none, createdAt := 0, ready := true }

/-- A one-entry pool used by the concrete witnesses. -/
def poolW : Pool := [("u1".toList, entryReadyW)]

/-- Witness for C6 at a concrete one-entry pool. -/
theorem claim_warm_exclusive_witness :
    entryReadyW.ready = true ∧
    List.lookup ("u1".toList) (claim_warm ("u1".toList) poolW).2 = none ∧
    claim_warm ("u1".toList) ((claim_warm ("u1".toList) poolW).2) =
      (none, (claim_warm ("u1".toList) poolW).2) :=
  claim_warm_exclusive ("u1".toList) poolW entryReadyW (by decide)

/-- Claim C7: eviction removes exactly the warm pool entries whose age
strictly exceeds the 25-minute TTL, regardless of ready or warming
state: after `cleanup_expired_sandboxes now`, a looked-up entry survives
iff `now - created_at ≤ TTL`, and every strictly over-age entry is in
the torn-down set. -/
theorem cleanup_ttl_boundary (now : Int) (pool : Pool) (uid : Str) (e : PoolEntry)
    (hnd : (pool.map Prod.fst).Nodup)
    (hl : List.lookup uid pool = some e) :
    List.lookup uid (cleanup_expired_sandboxes now pool) =
      (if now - e.createdAt > WARM_SANDBOX_TTL then none else some e) ∧
    (now - e.createdAt > WARM_SANDBOX_TTL →
      List.lookup uid (expired_entries now pool) = some e) := by
  constructor
  · have hk := lookup_filter_nodupKeys
      (fun p => decide (now - p.2.createdAt ≤ WARM_SANDBOX_TTL)) uid e pool hnd hl
    simp only [cleanup_expired_sandboxes]
    rw [hk]
    by_cases hc : now - e.createdAt > WARM_SANDBOX_TTL
    · have hnle : ¬ (now - e.createdAt ≤ WARM_SANDBOX_TTL) := by omega
      simp [hc, hnle]
    · have hle : now - e.createdAt ≤ WARM_SANDBOX_TTL := by omega
      simp [hc, hle]
  · intro hc
    have hk := lookup_filter_nodupKeys
      (fun p => decide (now - p.2.createdAt > WARM_SANDBOX_TTL)) uid e pool hnd hl
    simp only [expired_entries]
    rw [hk]
    simp [hc]

/-- An entry one second past the TTL at time 10000. -/
def entryOverAge : PoolEntry :=
  { sandboxId := some "sb-old".toList, agent := none
    createdAt := 10000 - WARM_SANDBOX_TTL - 1, ready := true }

/-- An entry one second short of the TTL at time 10000. -/
def entryUnderAge : PoolEntry :=
  { sandboxId := none, agent := none
    createdAt := 10000 - WARM_SANDBOX_TTL + 1, ready := false }

/-- The two-entry pool exercising both sides of the TTL boundary. -/
def poolTTL : Pool :=
  [("u1".toList, entryOverAge), ("u2".toList, entryUnderAge)]

/-- Witness for C7 at `created_at = now - TTL - 1` (removed, ready entry)
and `created_at = now - TTL + 1` (retained, warming entry). -/
theorem cleanup_ttl_boundary_witness :
    List.lookup ("u1".toList) (cleanup_expired_sandboxes 10000 poolTTL) = none ∧
    List.lookup ("u2".toList) (cleanup_expired_sandboxes 10000 poolTTL) = some entryUnderAge ∧
    List.lookup ("u1".toList) (expired_entries 10000 poolTTL) = some entryOverAge := by
  have h1 := cleanup_ttl_boundary 10000 poolTTL ("u1".toList) entryOverAge
    (by decide) (by decide)
  have h2 := cleanup_ttl_boundary 10000 poolTTL ("u2".toList) entryUnderAge
    (by decide) (by decide)
  refine ⟨?_, ?_, h1.2 (by decide)⟩
  · rw [h1.1]
    decide
  · rw [h2.1]
    decide

/-- Claim C9: `GET /warm/status/{userId}` reports the stored entry state
without checking the TTL — an entry whose age already exceeds the
25-minute TTL is still reported with status `ready` (or `warming`) by
`warm_status` (which takes no clock at all), even though the cleanup the
`POST /warm` handler runs first would remove that entry and
`warm_sandbox_step` would then insert a fresh warming one. -/
theorem warm_status_skips_ttl_check (now : Int) (uid st : Str)
    (mp : Option Str) (pool : Pool) (e : PoolEntry)
    (hnd : (pool.map Prod.fst).Nodup)
    (hl : List.lookup uid pool = some e)
    (hexp : now - e.createdAt > WARM_SANDBOX_TTL) :
    (warm_status uid pool).status =
      (if e.ready then "ready".toList else "warming".toList) ∧
    (warm_status uid pool).ready = e.ready ∧
    List.lookup uid (cleanup_expired_sandboxes now pool) = none ∧
    (warm_sandbox_step now ⟨uid, st, mp⟩ pool).2 =
      cleanup_expired_sandboxes now pool ++
        [(uid, { sandboxId := none, agent := none, createdAt := now, ready := false })] := by
  have hclean : List.lookup uid (cleanup_expired_sandboxes now pool) = none := by
    have hk := lookup_filter_nodupKeys
      (fun p => decide (now - p.2.createdAt ≤ WARM_SANDBOX_TTL)) uid e pool hnd hl
    have hnle : ¬ (now - e.createdAt ≤ WARM_SANDBOX_TTL) := by omega
    simp only [cleanup_expired_sandboxes]
    rw [hk]
    simp [hnle]
  refine ⟨?_, ?_, hclean, ?_⟩
  · simp [warm_status, hl]
  · simp [warm_status, hl]
  · simp [warm_sandbox_step, hclean]

/-- Witness for C9: at time 10000 the pool `poolTTL` holds the over-age
ready entry for user u1, yet the status endpoint still reports it
ready. -/
theorem warm_status_skips_ttl_check_witness :
    (warm_status ("u1".toList) poolTTL).status = "ready".toList ∧
    (warm_status ("u1".toList) poolTTL).ready = true ∧
    List.lookup ("u1".toList) (cleanup_expired_sandboxes 10000 poolTTL) = none := by
  have h := warm_status_skips_ttl_check 10000 ("u1".toList) ("tok".toList) none
    poolTTL entryOverAge (by decide) (by decide) (by decide)
  refine ⟨?_, ?_, h.2.2.1⟩
  · rw [h.1]
    decide
  · rw [h.2.1]
    decide

/-- Claim C10: the non-streaming `POST /run` endpoint never reads or
modifies the warm pool — it constructs a fresh `DynamiqAgent` from the
request fields (reconnecting by `sandbox_id` or creating a new sandbox
inside `setup`) and every warm pool entry, for the requesting user or
any other, is unchanged by the request. -/
theorem run_endpoint_pool_frame (setupSid runRes : Str) (req : RunReq) (pool : Pool) :
    (run_agent setupSid runRes req pool).2.2 = pool ∧
    (∀ uid, List.lookup uid (run_agent setupSid runRes req pool).2.2 =
      List.lookup uid pool) ∧
    (run_agent setupSid runRes req pool).2.1 =
      mkDynamiqAgent req.userId req.sessionToken (pyOrEmpty req.mcpProxyUrl)
        (pyOrEmpty req.conversationId) req.sandboxId req.messages req.files ∧
    ((run_agent setupSid runRes req pool).2.1).existingSandboxId = req.sandboxId ∧
    (run_agent setupSid runRes req pool).1 =
      { response := runRes, sandboxId := some setupSid } :=
  ⟨rfl, fun _ => rfl, rfl, rfl, rfl⟩

/-- The loop makes at most `fuel` further completion calls. -/
lemma runLoop_calls_le (ctx : LoopCtx) (oracle : Nat → CompletionResult) :
    ∀ (fuel callIdx : Nat) (ms : List ChatMessage) (evs : List Event) (calls : Nat),
      (runLoop ctx oracle fuel callIdx ms evs calls).completionCalls ≤ calls + fuel := by
  intro fuel
  induction fuel with
  | zero =>
    intro callIdx ms evs calls
    simp [runLoop]
  | succ n ih =>
    intro callIdx ms evs calls
    rw [runLoop]
    cases h : oracle callIdx with
    | failure e =>
      simp
    | success content tcs =>
      by_cases he : tcs.isEmpty = true
      · simp [he]
      · simp only [he, if_false, Bool.false_eq_true]
        have := ih (callIdx + 1)
          (ms ++ assistantToolMessage content tcs :: (tcs.map (processToolCall ctx)).map Prod.snd)
          ((evs ++ [Event.thinking (callIdx + 1)]) ++ (tcs.map (processToolCall ctx)).flatMap Prod.fst)
          (calls + 1)
        omega

/-- When every remaining response requests tool calls, the loop runs its
full budget and returns the sentinel text. -/
lemma runLoop_all_tools (ctx : LoopCtx) (oracle : Nat → CompletionResult) :
    ∀ (fuel callIdx : Nat) (ms : List ChatMessage) (evs : List Event) (calls : Nat),
      (∀ j, callIdx ≤ j → j < callIdx + fuel → requestsTools (oracle j) = true) →
      (runLoop ctx oracle fuel callIdx ms evs calls).finalText = MAX_ITERATIONS_TEXT ∧
      (runLoop ctx oracle fuel callIdx ms evs calls).completionCalls = calls + fuel := by
  intro fuel
  induction fuel with
  | zero =>
    intro callIdx ms evs calls _
    simp [runLoop]
  | succ n ih =>
    intro callIdx ms evs calls hall
    have htool : requestsTools (oracle callIdx) = true :=
      hall callIdx (le_refl _) (by omega)
    rw [runLoop]
    cases h : oracle callIdx with
    | failure e =>
      rw [h] at htool
      simp [requestsTools] at htool
    | success content tcs =>
      rw [h] at htool
      have he : tcs.isEmpty = false := by
        simp [requestsTools] at htool
        simpa using htool
      simp only [he, if_false, Bool.false_eq_true]
      have := ih (callIdx + 1)
        (ms ++ assistantToolMessage content tcs :: (tcs.map (processToolCall ctx)).map Prod.snd)
        ((evs ++ [Event.thinking (callIdx + 1)]) ++ (tcs.map (processToolCall ctx)).flatMap Prod.fst)
        (calls + 1)
        (by intro j h1 h2; exact hall j (by omega) (by omega))
      exact ⟨this.1, by omega⟩

/-- When the k-th completion call fails after tool-only responses, the
loop stops there: error text returned, k+1 calls made, error event
last. -/
lemma runLoop_failure_at (ctx : LoopCtx) (oracle : Nat → CompletionResult) (e : Str) :
    ∀ (fuel k callIdx : Nat) (ms : List ChatMessage) (evs : List Event) (calls : Nat),
      callIdx ≤ k → k < callIdx + fuel →
      (∀ j, callIdx ≤ j → j < k → requestsTools (oracle j) = true) →
      oracle k = CompletionResult.failure e →
      (runLoop ctx oracle fuel callIdx ms evs calls).finalText = llmErrorReturnText e ∧
      (runLoop ctx oracle fuel callIdx ms evs calls).completionCalls = calls + (k - callIdx) + 1 ∧
      (runLoop ctx oracle fuel callIdx ms evs calls).events.getLast? =
        some (Event.error (llmErrorEventText e)) := by
  intro fuel
  induction fuel with
  | zero =>
    intro k callIdx ms evs calls h1 h2 _ _
    omega
  | succ n ih =>
    intro k callIdx ms evs calls h1 h2 hprev hfail
    rw [runLoop]
    by_cases hk : k = callIdx
    · subst hk
      rw [hfail]
      refine ⟨rfl, by simp, ?_⟩
      simp [List.getLast?_append]
    · have htool : requestsTools (oracle callIdx) = true :=
        hprev callIdx (le_refl _) (by omega)
      cases h : oracle callIdx with
      | failure e2 =>
        rw [h] at htool
        simp [requestsTools] at htool
      | success content tcs =>
        rw [h] at htool
        have he : tcs.isEmpty = false := by
          simp [requestsTools] at htool
          simpa using htool
        simp only [he, if_false, Bool.false_eq_true]
        have := ih k (callIdx + 1)
          (ms ++ assistantToolMessage content tcs :: (tcs.map (processToolCall ctx)).map Prod.snd)
          ((evs ++ [Event.thinking (callIdx + 1)]) ++ (tcs.map (processToolCall ctx)).flatMap Prod.fst)
          (calls + 1)
          (by omega) (by omega)
          (by intro j hj1 hj2; exact hprev j (by omega) hj2)
          hfail
        exact ⟨this.1, by omega, this.2.2⟩

/-- Claim C4: for every run, the agent loop performs at most 15
completion (model-query) iterations; and if all 15 responses request
tool calls, `run` returns the fixed sentinel text
"Maximum iterations reached. Please try a simpler request." rather than
raising or reporting an error. -/
theorem iteration_budget_and_sentinel (ctx : LoopCtx)
    (oracle : Nat → CompletionResult) (systemPrompt : Str)
    (history : List HistMessage) (userMessage : Str) :
    (agent_run ctx oracle systemPrompt history userMessage).completionCalls ≤ 15 ∧
    ((∀ j, j < 15 → requestsTools (oracle j) = true) →
      (agent_run ctx oracle systemPrompt history userMessage).finalText =
        MAX_ITERATIONS_TEXT ∧
      (agent_run ctx oracle systemPrompt history userMessage).completionCalls = 15) := by
  constructor
  · simpa [agent_run] using runLoop_calls_le ctx oracle 15 0
      (build_messages systemPrompt history userMessage) [] 0
  · intro hall
    have h := runLoop_all_tools ctx oracle 15 0
      (build_messages systemPrompt history userMessage) [] 0
      (by intro j h1 h2; exact hall j (by omega))
    simpa [agent_run] using h

/-- A completion oracle that always requests one tool call. -/
def toolOnlyOracle : Nat → CompletionResult := fun _ =>
  CompletionResult.success none
    [{ id := "id1".toList, name := "t1".toList, arguments := [] }]

/-- A loop context whose tool oracle returns an empty string. -/
def idLoopCtx : LoopCtx :=
  { normalizeArgs := fun a => a
    execTool := fun _ _ => ToolOutcome.textResult [] }

/-- Witness for C4: fifteen consecutive tool-only responses yield the
sentinel text with exactly 15 completion calls. -/
theorem iteration_budget_and_sentinel_witness :
    (agent_run idLoopCtx toolOnlyOracle [] [] []).completionCalls ≤ 15 ∧
    (agent_run idLoopCtx toolOnlyOracle [] [] []).finalText = MAX_ITERATIONS_TEXT ∧
    (agent_run idLoopCtx toolOnlyOracle [] [] []).completionCalls = 15 := by
  have h := iteration_budget_and_sentinel idLoopCtx toolOnlyOracle [] [] []
  have h2 := h.2 (by intro j hj; rfl)
  exact ⟨h.1, h2.1, h2.2⟩

/-- Claim C8: for every run in which a completion call raises a failure,
the run ends immediately: an error event is emitted (and is the last
event, so no further tool executions occur), the returned final text is
the error text, and the completion call is not retried — exactly k+1
completion calls are made when the failure happens on the k-th call. -/
theorem completion_failure_fatal (ctx : LoopCtx)
    (oracle : Nat → CompletionResult) (systemPrompt : Str)
    (history : List HistMessage) (userMessage : Str) (k : Nat) (e : Str)
    (hk : k < 15)
    (hprev : ∀ j, j < k → requestsTools (oracle j) = true)
    (hfail : oracle k = CompletionResult.failure e) :
    (agent_run ctx oracle systemPrompt history userMessage).finalText =
      llmErrorReturnText e ∧
    (agent_run ctx oracle systemPrompt history userMessage).completionCalls = k + 1 ∧
    (agent_run ctx oracle systemPrompt history userMessage).events.getLast? =
      some (Event.error (llmErrorEventText e)) := by
  have h := runLoop_failure_at ctx oracle e 15 k 0
    (build_messages systemPrompt history userMessage) [] 0
    (by omega) (by omega) (by intro j h1 h2; exact hprev j h2) hfail
  simpa [agent_run] using h

/-- A completion oracle that always fails. -/
def failOracle : Nat → CompletionResult := fun _ =>
  CompletionResult.failure ("boom".toList)

/-- Witness for C8: a failure on the first completion call ends the run
with the error text after exactly one call. -/
theorem completion_failure_fatal_witness :
    (agent_run idLoopCtx failOracle [] [] []).finalText =
      llmErrorReturnText ("boom".toList) ∧
    (agent_run idLoopCtx failOracle [] [] []).completionCalls = 1 ∧
    (agent_run idLoopCtx failOracle [] [] []).events.getLast? =
      some (Event.error (llmErrorEventText ("boom".toList))) := by
  exact completion_failure_fatal idLoopCtx failOracle [] [] [] 0 ("boom".toList)
    (by omega) (by intro j hj; omega) rfl

/-- Claim C5: for every conversation history passed into `run`, the
rebuilt message list places, immediately after each assistant message
declaring N tool invocations, exactly N tool-role messages, one per
invocation id, in the order the invocations were declared, using the
placeholder "(no result)" when no result was recorded, so the completion
capability never sees an unmatched tool call. -/
theorem history_tool_call_pairing (systemPrompt : Str) (history : List HistMessage)
    (userMessage : Str) (m : HistMessage) (tcs : List HistToolCall)
    (hm : m ∈ history) (hrole : m.role = "assistant".toList)
    (htc : m.toolCalls = some tcs) (hne : tcs ≠ []) :
    ∃ l1 l2,
      build_messages systemPrompt history userMessage =
        l1 ++ (histToChatMessage m :: tcs.map toolResultMessage) ++ l2 ∧
      (tcs.map toolResultMessage).length = tcs.length ∧
      (histToChatMessage m).toolCalls = tcs.map toOpenAIToolCall ∧
      ∀ tc ∈ tcs,
        (toolResultMessage tc).role = "tool".toList ∧
        (toolResultMessage tc).toolCallId = some tc.id ∧
        (tc.result = none →
          (toolResultMessage tc).content = some ("(no result)".toList)) := by
  have hd : histDeclaredCalls m = tcs := by
    simp [histDeclaredCalls, htc, hne, hrole]
  obtain ⟨s, t, rfl⟩ := List.append_of_mem hm
  refine ⟨{ role := "system".toList, content := some systemPrompt } ::
      s.flatMap expandHistMessage,
    t.flatMap expandHistMessage ++
      [{ role := "user".toList, content := some userMessage }],
    ?_, by simp, ?_, ?_⟩
  · simp [build_messages, List.flatMap_append, List.flatMap_cons,
      expandHistMessage, hd, List.append_assoc]
  · simp [histToChatMessage, hd, hne]
  · intro tc _
    refine ⟨rfl, rfl, ?_⟩
    intro hres
    simp [toolResultMessage, hres]

/-- Two recorded tool calls used by the C5 witness, the second without
a recorded result. -/
def tcsW : List HistToolCall :=
  [{ id := "tc1".toList, name := "execute_command".toList
     arguments := "ls".toList, result := some ("ok".toList) },
   { id := "tc2".toList, name := "read_file".toList
     arguments := "p".toList, result := none }]

/-- An assistant history message declaring the two tool calls. -/
def histAssistantW : HistMessage :=
  { role := "assistant".toList, content := [], toolCalls := some tcsW }

/-- A two-message history ending in the assistant tool-call message. -/
def historyW : List HistMessage :=
  [{ role := "user".toList, content := "hi".toList, toolCalls := none },
   histAssistantW]

/-- Witness for C5 on a concrete two-call history. -/
theorem history_tool_call_pairing_witness :
    ∃ l1 l2,
      build_messages [] historyW ("next".toList) =
        l1 ++ (histToChatMessage histAssistantW :: tcsW.map toolResultMessage) ++ l2 ∧
      (tcsW.map toolResultMessage).length = tcsW.length ∧
      (histToChatMessage histAssistantW).toolCalls = tcsW.map toOpenAIToolCall ∧
      ∀ tc ∈ tcsW,
        (toolResultMessage tc).role = "tool".toList ∧
        (toolResultMessage tc).toolCallId = some tc.id ∧
        (tc.result = none →
          (toolResultMessage tc).content = some ("(no result)".toList)) := by
  exact history_tool_call_pairing [] historyW ("next".toList) histAssistantW tcsW
    (by decide) (by decide) (by decide) (by decide)

/-- The relay loop of `generate_events` delivers the flushed events in
order and one `message` event built from `_final_result`, then stops at
`_done`; queue items after `_done` are never read. -/
lemma relayQueue_stream (flushed pending : List Event) (fin : Str) :
    relayQueue (flushed.map QueueItem.evt ++
      QueueItem.finalResult fin :: QueueItem.doneSignal ::
        pending.map QueueItem.evt) = flushed ++ [Event.message fin] := by
  induction flushed with
  | nil => rfl
  | cons e rest ih => simp [relayQueue, ih]

/-- The flushed and pending events of the tool steps are, together, the
events `processToolCall` emits, in emission order. -/
lemma streamToolSteps_spec (ctx : LoopCtx) :
    ∀ (tcs : List ToolCallReq) (flushed pending : List Event),
      (streamToolSteps ctx tcs flushed pending).1 ++
          (streamToolSteps ctx tcs flushed pending).2 =
        flushed ++ pending ++ (tcs.map (processToolCall ctx)).flatMap Prod.fst := by
  intro tcs
  induction tcs with
  | nil =>
    intro flushed pending
    simp [streamToolSteps]
  | cons tc rest ih =>
    intro flushed pending
    simp only [streamToolSteps]
    rw [ih]
    simp [processToolCall, List.append_assoc]

/-- The queue-visible run agrees with the loop model: its flushed and
pending events are, together, exactly the events the loop emitted, in
order, and the final texts coincide. -/
lemma runLoopStream_agrees (ctx : LoopCtx) (oracle : Nat → CompletionResult) :
    ∀ (fuel callIdx : Nat) (ms : List ChatMessage)
      (flushed pending : List Event) (calls : Nat),
      (runLoopStream ctx oracle fuel callIdx ms flushed pending calls).flushed ++
          (runLoopStream ctx oracle fuel callIdx ms flushed pending calls).pending =
        (runLoop ctx oracle fuel callIdx ms (flushed ++ pending) calls).events ∧
      (runLoopStream ctx oracle fuel callIdx ms flushed pending calls).finalText =
        (runLoop ctx oracle fuel callIdx ms (flushed ++ pending) calls).finalText := by
  intro fuel
  induction fuel with
  | zero =>
    intro callIdx ms flushed pending calls
    simp [runLoopStream, runLoop]
  | succ n ih =>
    intro callIdx ms flushed pending calls
    rw [runLoopStream, runLoop]
    cases h : oracle callIdx with
    | failure e =>
      simp [List.append_assoc]
    | success content tcs =>
      by_cases he : tcs.isEmpty = true
      · simp [he, List.append_assoc]
      · simp only [he, if_false, Bool.false_eq_true]
        have hst := streamToolSteps_spec ctx tcs
          (flushed ++ (pending ++ [Event.thinking (callIdx + 1)])) []
        obtain ⟨ih1, ih2⟩ := ih (callIdx + 1)
          (ms ++ assistantToolMessage content tcs ::
            (tcs.map (processToolCall ctx)).map Prod.snd)
          (streamToolSteps ctx tcs
            (flushed ++ (pending ++ [Event.thinking (callIdx + 1)])) []).1
          (streamToolSteps ctx tcs
            (flushed ++ (pending ++ [Event.thinking (callIdx + 1)])) []).2
          (calls + 1)
        rw [hst] at ih1 ih2
        constructor
        · rw [ih1]
          simp [List.append_assoc]
        · rw [ih2]
          simp [List.append_assoc]

/-- The tool call requested in the C2 scenario. -/
def demoToolCall : ToolCallReq :=
  { id := "call_1".toList, name := "execute_command".toList
    arguments := "ls".toList }

/-- The completion oracle of the C2 scenario: one tool call, then a
final natural-language reply. -/
def demoOracle : Nat → CompletionResult := fun i =>
  if i = 0 then CompletionResult.success none [demoToolCall]
  else CompletionResult.success (some ("Found 2 files: a.txt, b.txt".toList)) []

/-- The loop context of the C2 scenario: the tool returns the listing. -/
def demoLsCtx : LoopCtx :=
  { normalizeArgs := fun a => a
    execTool := fun _ _ => ToolOutcome.textResult ("a.txt\nb.txt".toList) }

/-- The queue-visible run of the C2 scenario. -/
def demoStreamOutcome : RunStreamOutcome :=
  agent_run_stream demoLsCtx demoOracle [] [] ("list files".toList)

/-- The queue-visible run of a completion-failure run. -/
def demoFailStreamOutcome : RunStreamOutcome :=
  agent_run_stream idLoopCtx failOracle [] [] []

/-- Claim C2 as stated is false: in a completion-failure run the loop
produced an Error event, but the outward stream does not reproduce the
loop's events followed by Done — the Error event was emitted after the
run's last suspension point, lands on the queue after `_done`, and is
never relayed; a `message` event carrying the error text appears in its
place. -/
theorem stream_drops_trailing_error_event :
    Event.error (llmErrorEventText ("boom".toList)) ∈
      (agent_run idLoopCtx failOracle [] [] []).events ∧
    streamedEvents demoFailStreamOutcome ≠
      (agent_run idLoopCtx failOracle [] [] []).events ++ [Event.done] ∧
    Event.error (llmErrorEventText ("boom".toList)) ∉
      streamedEvents demoFailStreamOutcome ∧
    streamedEvents demoFailStreamOutcome =
      [Event.thinking 1,
       Event.message (llmErrorReturnText ("boom".toList)), Event.done] := by
  refine ⟨by decide, by decide, by decide, by decide⟩

/-- Claim C2 (amended): the outward stream relays, in exactly the order
produced, the loop events emitted strictly before the run's last
suspension point, then one Message event carrying the run's returned
text, then one terminal Done; events emitted after the final await are
enqueued after `_done` and never relayed, so a run that ends in a final
natural-language reply is reproduced exactly — in the one-tool-call
scenario the observed sequence is Thinking, ToolCall, ToolResult,
Thinking, Message, Done, with exactly one Message event carrying the
final content. -/
theorem stream_relay_amended :
    (∀ r : RunStreamOutcome,
      streamedEvents r = r.flushed ++ [Event.message r.finalText, Event.done]) ∧
    (∀ r : RunStreamOutcome, r.pending = [Event.message r.finalText] →
      streamedEvents r = (r.flushed ++ r.pending) ++ [Event.done]) ∧
    (∀ (ctx : LoopCtx) (oracle : Nat → CompletionResult) (sp : Str)
        (hist : List HistMessage) (u : Str),
      (agent_run_stream ctx oracle sp hist u).flushed ++
          (agent_run_stream ctx oracle sp hist u).pending =
        (agent_run ctx oracle sp hist u).events ∧
      (agent_run_stream ctx oracle sp hist u).finalText =
        (agent_run ctx oracle sp hist u).finalText) ∧
    streamedEvents demoStreamOutcome =
      [Event.thinking 1,
       Event.toolCall ("call_1".toList) ("execute_command".toList) ("ls".toList),
       Event.toolResult ("call_1".toList) ("execute_command".toList)
         ("a.txt\nb.txt".toList),
       Event.thinking 2,
       Event.message ("Found 2 files: a.txt, b.txt".toList),
       Event.done] ∧
    demoStreamOutcome.finalText = "Found 2 files: a.txt, b.txt".toList ∧
    (streamedEvents demoStreamOutcome).countP isMessageEvent = 1 := by
    refine ⟨?_, ?_, ?_, by decide, by decide, by decide⟩
    · intro r
      simp [streamedEvents, runTaskQueue, relayQueue_stream]
    · intro r hp
      have hlaw : streamedEvents r =
          r.flushed ++ [Event.message r.finalText, Event.done] := by
        simp [streamedEvents, runTaskQueue, relayQueue_stream]
      rw [hlaw, hp]
      simp
    · intro ctx oracle sp hist u
      exact runLoopStream_agrees ctx oracle 15 0
        (build_messages sp hist u) [] [] 0

/-- Witness for the amended C2: the scenario run ends in a final reply,
its pending events are exactly the loop's final Message, and the stream
reproduces the loop events followed by Done. -/
theorem stream_relay_amended_witness :
    streamedEvents demoStreamOutcome =
      (demoStreamOutcome.flushed ++ demoStreamOutcome.pending) ++ [Event.done] := by
  exact stream_relay_amended.2.1 demoStreamOutcome (by decide)

/-- A raw tool result of 8001 characters. -/
def longRaw8001 : Str := List.replicate 8001 'a'

/-- A raw tool result of 1001 characters. -/
def longRaw1001 : Str := List.replicate 1001 'b'

/-- Length of the 8001-character raw result. -/
lemma longRaw8001_length : longRaw8001.length = 8001 := by
  unfold longRaw8001
  rw [List.length_replicate]

/-- Length of the 1001-character raw result. -/
lemma longRaw1001_length : longRaw1001.length = 1001 := by
  unfold longRaw1001
  rw [List.length_replicate]

/-- Claim C3 as stated is false: a raw result of 8001 characters folds
back into the message list as 8024 characters (8000 kept plus the
24-character marker), not at most 8000; and a raw result of 1001
characters is emitted on the event as 1003 characters (1000 kept plus
the 3-character ellipsis), not at most 1000. -/
theorem truncation_limits_counterexample :
    ¬ ((truncateForMessages longRaw8001).length ≤ 8000) ∧
    ¬ ((truncateForEvent longRaw1001).length ≤ 1000) := by
  have hm : TRUNCATION_MARKER.length = 24 := rfl
  have he : ("...".toList).length = 3 := rfl
  have hlen8 := longRaw8001_length
  have hlen1 := longRaw1001_length
  have h8 : (truncateForMessages longRaw8001).length = 8024 := by
    rw [truncateForMessages, if_pos (by omega)]
    rw [List.length_append, List.length_take, hm, hlen8]
    omega
  have h1 : (truncateForEvent longRaw1001).length = 1003 := by
    rw [truncateForEvent, if_pos (by omega)]
    rw [List.length_append, List.length_take, hlen1, he]
    omega
  exact ⟨by omega, by omega⟩

/-- Claim C3 (amended): a raw result longer than 8000 characters folds
back into the message list as exactly 8024 characters — its first 8000
characters plus the visible 24-character marker, which is a suffix of
the stored string; a result longer than 1000 characters is emitted on
the ToolResult event as exactly 1003 characters (first 1000 plus the
ellipsis), so the event payload is always at most 1003 characters;
results at or under each limit pass through unchanged. -/
theorem truncation_limits_amended (raw : Str) :
    (raw.length > 8000 →
      (truncateForMessages raw).length = 8024 ∧
      TRUNCATION_MARKER <:+ truncateForMessages raw) ∧
    (raw.length ≤ 8000 → truncateForMessages raw = raw) ∧
    (raw.length > 1000 → (truncateForEvent raw).length = 1003) ∧
    (raw.length ≤ 1000 → truncateForEvent raw = raw) ∧
    (truncateForEvent (truncateForMessages raw)).length ≤ 1003 := by
  have hm : TRUNCATION_MARKER.length = 24 := rfl
  have he : ("...".toList).length = 3 := rfl
  have hev : ∀ r : Str, (truncateForEvent r).length ≤ 1003 := by
    intro r
    rw [truncateForEvent]
    by_cases h : r.length > 1000
    · rw [if_pos h, List.length_append, List.length_take, he]
      have hmin := Nat.min_le_left 1000 r.length
      omega
    · rw [if_neg h, List.append_nil, List.length_take]
      have hmin := Nat.min_le_left 1000 r.length
      omega
  refine ⟨?_, ?_, ?_, ?_, hev _⟩
  · intro h8
    rw [truncateForMessages, if_pos h8]
    refine ⟨?_, List.suffix_append _ _⟩
    rw [List.length_append, List.length_take, hm]
    have hmin : min 8000 raw.length = 8000 := Nat.min_eq_left (by omega)
    omega
  · intro h8
    rw [truncateForMessages, if_neg (by omega)]
  · intro h1
    rw [truncateForEvent, if_pos h1, List.length_append, List.length_take, he]
    have hmin : min 1000 raw.length = 1000 := Nat.min_eq_left (by omega)
    omega
  · intro h1
    rw [truncateForEvent, if_neg (by omega), List.append_nil,
      List.take_of_length_le (by omega)]

/-- Witness for the amended C3 at the concrete over-limit inputs. -/
theorem truncation_limits_amended_witness :
    (truncateForMessages longRaw8001).length = 8024 ∧
    TRUNCATION_MARKER <:+ truncateForMessages longRaw8001 ∧
    (truncateForEvent longRaw1001).length = 1003 := by
  have h1 := (truncation_limits_amended longRaw8001).1
    (by rw [longRaw8001_length]; omega)
  have h2 := (truncation_limits_amended longRaw1001).2.2.1
    (by rw [longRaw1001_length]; omega)
  exact ⟨h1.1, h1.2, h2⟩

/-- The warmed agent stored in the pool for the C1 counterexample. -/
def warmAgentX : AgentObj :=
  mkDynamiqAgent ("u1".toList) ("tok".toList) [] [] none none none

/-- A ready pool entry holding the warmed agent and its sandbox id. -/
def entryReadyX : PoolEntry :=
  { sandboxId := some ("sb-warm".toList), agent := some warmAgentX
    createdAt := 0, ready := true }

/-- A pool holding the ready entry for user u1. -/
def poolX : Pool := [("u1".toList, entryReadyX)]

/-- A `/run/stream` request from u1 that carries an explicit sandbox
id. -/
def reqExplicitSid : RunReq :=
  { message := "hi".toList, messages := none, userId := "u1".toList
    sessionToken := "tok".toList, conversationId := none
    sandboxId := some ("sb-explicit".toList), mcpProxyUrl := none
    files := none }

/-- Claim C1 as stated is false: a `/run/stream` request carrying an
explicit sandbox id does not leave the warm pool entry for its user in
place — the resolution step pops the ready entry before checking
`req.sandbox_id`, so the entry is gone afterwards even though the warmed
handle is not used (`usingWarm = false`). -/
theorem explicit_sandbox_still_pops_warm_entry :
    List.lookup ("u1".toList) poolX = some entryReadyX ∧
    entryReadyX.ready = true ∧
    pyTruthyStr reqExplicitSid.sandboxId = true ∧
    (run_agent_stream_resolve reqExplicitSid poolX).usingWarm = false ∧
    List.lookup ("u1".toList) (run_agent_stream_resolve reqExplicitSid poolX).pool =
      none ∧
    List.lookup ("u1".toList) (run_agent_stream_resolve reqExplicitSid poolX).pool ≠
      List.lookup ("u1".toList) poolX := by
  decide

/-- Claim C1 (amended): the resolution step of `/run/stream` pops the
ready warm pool entry for the request's user id whenever one is present,
even when the request carries an explicit sandbox id (in which case the
popped entry is simply discarded); when no ready entry is present the
pool is untouched; and the warmed handle is used for the run exactly
when a ready entry with an agent and a truthy sandbox id was popped and
the request carries no truthy explicit sandbox id — otherwise a fresh
agent provisions/reconnects directly. -/
theorem warm_claim_resolution_amended (req : RunReq) (pool : Pool) :
    ((claim_warm req.userId pool).1 = none →
      (run_agent_stream_resolve req pool).pool = pool) ∧
    (∀ e, (claim_warm req.userId pool).1 = some e →
      List.lookup req.userId (run_agent_stream_resolve req pool).pool = none) ∧
    ((run_agent_stream_resolve req pool).usingWarm = true ↔
      ∃ e, (claim_warm req.userId pool).1 = some e ∧
        e.agent.isSome = true ∧ pyTruthyStr e.sandboxId = true ∧
        pyTruthyStr req.sandboxId = false) ∧
    ((run_agent_stream_resolve req pool).usingWarm = false →
      (run_agent_stream_resolve req pool).agent =
        mkDynamiqAgent req.userId req.sessionToken (pyOrEmpty req.mcpProxyUrl)
          (pyOrEmpty req.conversationId) req.sandboxId req.messages req.files) := by
  cases hc : (claim_warm req.userId pool).1 with
  | none =>
    have hp := claim_warm_none_pool req.userId pool hc
    refine ⟨fun _ => ?_, ?_, ?_, ?_⟩
    · simp [run_agent_stream_resolve, hc, hp]
    · intro e he
      simp at he
    · simp [run_agent_stream_resolve, hc]
    · intro _
      simp [run_agent_stream_resolve, hc]
  | some e =>
    obtain ⟨hl, hr, hp⟩ := claim_warm_some req.userId pool e hc
    by_cases hcond : e.agent.isSome = true ∧ pyTruthyStr e.sandboxId = true ∧
        pyTruthyStr req.sandboxId = false
    · refine ⟨?_, ?_, ?_, ?_⟩
      · intro h0
        simp at h0
      · intro e2 _
        have hpe : (run_agent_stream_resolve req pool).pool = poolErase req.userId pool := by
          simp [run_agent_stream_resolve, hc, hcond, hp]
        rw [hpe]
        exact lookup_poolErase req.userId pool
      · constructor
        · intro _
          exact ⟨e, rfl, hcond.1, hcond.2.1, hcond.2.2⟩
        · intro _
          simp [run_agent_stream_resolve, hc, hcond]
      · intro hw
        exfalso
        simp [run_agent_stream_resolve, hc, hcond] at hw
    · refine ⟨?_, ?_, ?_, ?_⟩
      · intro h0
        simp at h0
      · intro e2 _
        have hpe : (run_agent_stream_resolve req pool).pool = poolErase req.userId pool := by
          simp [run_agent_stream_resolve, hc, hcond, hp]
        rw [hpe]
        exact lookup_poolErase req.userId pool
      · constructor
        · intro hw
          exfalso
          simp [run_agent_stream_resolve, hc, hcond] at hw
        · rintro ⟨e2, he2, ha, hs, hr2⟩
          obtain rfl : e = e2 := by simpa using he2
          exact absurd ⟨ha, hs, hr2⟩ hcond
      · intro _
        simp [run_agent_stream_resolve, hc, hcond]

/-- A `/run/stream` request from u1 with no explicit sandbox id. -/
def reqNoSid : RunReq :=
  { message := "hi".toList, messages := none, userId := "u1".toList
    sessionToken := "tok".toList, conversationId := none
    sandboxId := none, mcpProxyUrl := none, files := none }

/-- Witness for the amended C1: with the ready entry present, both the
explicit-sandbox request and the plain request pop the entry; only the
plain request uses the warmed handle. -/
theorem warm_claim_resolution_amended_witness :
    List.lookup ("u1".toList) (run_agent_stream_resolve reqExplicitSid poolX).pool =
      none ∧
    (run_agent_stream_resolve reqNoSid []).pool = ([] : Pool) ∧
    (run_agent_stream_resolve reqNoSid poolX).usingWarm = true := by
  have h1 := (warm_claim_resolution_amended reqExplicitSid poolX).2.1 entryReadyX
    (by decide)
  have h2 := (warm_claim_resolution_amended reqNoSid ([] : Pool)).1 (by decide)
  have h3 := ((warm_claim_resolution_amended reqNoSid poolX).2.2.1).2
    ⟨entryReadyX, by decide, by decide, by decide, by decide⟩
  exact ⟨h1, h2, h3⟩
